import Mathlib

/-!
Shallow embedding of the RFC 9421 HTTP message-signature engine of
rs-sage-core (src/rfc9421/{signer,verifier,canonicalize,components,mod}.rs
and src/crypto/keys.rs), together with proofs about the embedded code.

Strings are modelled as Lean `String`; the Rust byte-index slicing used by
the verifier's parsers is modelled at the character level (all wire strings
involved are ASCII).  Machine integers (`i64`) are modelled as `Int` with
the `i64` range enforced where the code's `str::parse::<i64>` enforces it.
External cryptographic collaborators (ed25519-dalek, k256, sha2) are
modelled by an abstract `CryptoModel` carrying exactly the contracts the
code relies on.
-/

namespace Sage

/-- Error kinds of `src/error.rs` used by the RFC 9421 module. -/
inductive Err where
  | invalidInput (msg : String)
  | invalidKeyType (msg : String)
  | verification (msg : String)
  | unsupported (msg : String)
  | other (msg : String)
deriving DecidableEq, Repr

/-- `Result<T>` of the crate. -/
abbrev Res (α : Type) := Except Err α

instance {α : Type} [DecidableEq α] : DecidableEq (Res α) := fun a b =>
  match a, b with
  | .ok x, .ok y =>
    if h : x = y then .isTrue (by rw [h]) else .isFalse (by simp [h])
  | .error x, .error y =>
    if h : x = y then .isTrue (by rw [h]) else .isFalse (by simp [h])
  | .ok _, .error _ => .isFalse (by simp)
  | .error _, .ok _ => .isFalse (by simp)

/-- The two key types of `src/crypto/keys.rs`. -/
inductive KeyType where
  | ed25519
  | secp256k1
deriving DecidableEq, Repr

/-! ### Character-list utilities modelling Rust `str` operations -/

/-- Model of `str::strip_prefix` on character lists. -/
def dropPfxL : List Char → List Char → Option (List Char)
  | [], l => some l
  | _ :: _, [] => none
  | p :: ps, x :: xs => if x = p then dropPfxL ps xs else none

/-- Model of `str::strip_prefix`. -/
def dropPfx (p s : String) : Option String :=
  (dropPfxL p.data s.data).map String.mk

/-- Whether `p` is a prefix of `s` (model of `str::starts_with`). -/
def isPfxL (p s : List Char) : Bool :=
  (dropPfxL p s).isSome

/-- Split at the first occurrence of `c`: model of `splitn(2, c)` when the
separator occurs (`none` when it does not). -/
def splitFirst (c : Char) : List Char → Option (List Char × List Char)
  | [] => none
  | x :: xs =>
    if x = c then some ([], xs)
    else (splitFirst c xs).map (fun q => (x :: q.1, q.2))

/-- Model of Rust `str::split(c)`: every maximal separator-free run, with
empty pieces kept (the result is never empty). -/
def splitOnChar (c : Char) : List Char → List (List Char)
  | [] => [[]]
  | x :: xs =>
    if x = c then [] :: splitOnChar c xs
    else
      match splitOnChar c xs with
      | [] => [[x]]
      | y :: ys => (x :: y) :: ys

/-- ASCII whitespace (the characters relevant to the wire strings here). -/
def isWsChar (ch : Char) : Bool :=
  ch = ' ' || ch = '\t' || ch = '\n' || ch = '\r'

/-- Drop elements satisfying `p` from the right end. -/
def dropRightWhileL (p : Char → Bool) (l : List Char) : List Char :=
  (l.reverse.dropWhile p).reverse

/-- Model of Rust `str::trim`. -/
def trimL (l : List Char) : List Char :=
  dropRightWhileL isWsChar (l.dropWhile isWsChar)

/-- Model of Rust `str::trim_matches(c)`. -/
def trimMatchesL (c : Char) (l : List Char) : List Char :=
  dropRightWhileL (· = c) (l.dropWhile (· = c))

/-- Model of Rust `str::split_whitespace`. -/
def splitWsL : List Char → List (List Char)
  | [] => []
  | x :: xs =>
    if isWsChar x then splitWsL xs
    else
      match splitWsL xs with
      | [] => [[x]]
      | y :: ys =>
        match xs with
        | [] => [[x]]
        | z :: _ => if isWsChar z then [x] :: y :: ys else (x :: y) :: ys

/-! ### Decimal formatting and parsing (`format!` / `str::parse::<i64>`) -/

/-- The ASCII digit for `n % 10`-style values. -/
def digitChar : Nat → Char
  | 0 => '0' | 1 => '1' | 2 => '2' | 3 => '3' | 4 => '4'
  | 5 => '5' | 6 => '6' | 7 => '7' | 8 => '8' | _ => '9'

/-- Is an ASCII decimal digit. -/
def isDigitB (ch : Char) : Bool :=
  48 ≤ ch.toNat && ch.toNat ≤ 57

/-- Is a lowercase hexadecimal digit (what `hex::encode` emits). -/
def isHexLowerB (ch : Char) : Bool :=
  (48 ≤ ch.toNat && ch.toNat ≤ 57) || (97 ≤ ch.toNat && ch.toNat ≤ 102)

/-- Decimal digits with an explicit fuel bound (structural recursion so
that the kernel can evaluate it). -/
def natDecAux : Nat → Nat → List Char
  | 0, _ => []
  | fuel + 1, n =>
    if n < 10 then [digitChar n]
    else natDecAux fuel (n / 10) ++ [digitChar (n % 10)]

/-- Decimal digits of a natural number (model of Rust integer `Display`). -/
def natDec (n : Nat) : List Char := natDecAux (n + 1) n

/-- Decimal rendering of an `i64` value. -/
def intDec (i : Int) : String :=
  if i < 0 then String.mk ('-' :: natDec (-i).toNat) else String.mk (natDec i.toNat)

/-- Numeric value of a digit list. -/
def digitsVal (l : List Char) : Nat :=
  l.foldl (fun a c => a * 10 + (c.toNat - 48)) 0

/-- Strip an optional leading sign (model of the sign handling of
`str::parse::<i64>`); returns (isNegative, digits). -/
def parseSign : List Char → Bool × List Char
  | [] => (false, [])
  | x :: xs =>
    if x = '+' then (false, xs)
    else if x = '-' then (true, xs)
    else (false, x :: xs)

/-- Model of `str::parse::<i64>().ok()`. -/
def parseI64L (l : List Char) : Option Int :=
  match parseSign l with
  | (neg, ds) =>
    if ds.isEmpty then none
    else if ds.all isDigitB then
      if neg then (if digitsVal ds ≤ 2 ^ 63 then some (-(digitsVal ds : Int)) else none)
      else (if digitsVal ds ≤ 2 ^ 63 - 1 then some ((digitsVal ds : Int)) else none)
    else none

/-- `str::parse::<i64>().ok()` on a `String`. -/
def parseI64 (s : String) : Option Int := parseI64L s.data

/-! ### Base64 (RFC 4648 standard alphabet, padded), modelling the
`base64` crate's `general_purpose::STANDARD` engine -/

/-- The character of a six-bit group. -/
def sextetChar (n : Nat) : Char :=
  if n < 26 then Char.ofNat (65 + n)
  else if n < 52 then Char.ofNat (97 + (n - 26))
  else if n < 62 then Char.ofNat (48 + (n - 52))
  else if n = 62 then '+' else '/'

/-- Inverse of `sextetChar` on the base64 alphabet. -/
def charSextet (ch : Char) : Option Nat :=
  let v := ch.toNat
  if 65 ≤ v && v ≤ 90 then some (v - 65)
  else if 97 ≤ v && v ≤ 122 then some (26 + (v - 97))
  else if 48 ≤ v && v ≤ 57 then some (52 + (v - 48))
  else if ch = '+' then some 62
  else if ch = '/' then some 63
  else none

/-- Base64-encode a byte list (bytes are naturals below 256). -/
def b64encodeL : List Nat → List Char
  | [] => []
  | [a] => [sextetChar (a / 4), sextetChar (a % 4 * 16), '=', '=']
  | [a, b] => [sextetChar (a / 4), sextetChar (a % 4 * 16 + b / 16), sextetChar (b % 16 * 4), '=']
  | a :: b :: c :: rest =>
    sextetChar (a / 4) :: sextetChar (a % 4 * 16 + b / 16) ::
      sextetChar (b % 16 * 4 + c / 64) :: sextetChar (c % 64) :: b64encodeL rest

/-- Base64-encode to a `String` (`general_purpose::STANDARD.encode`). -/
def b64encode (bs : List Nat) : String := String.mk (b64encodeL bs)

/-- Decode one full base64 block of four alphabet characters. -/
def b64decBlock (c1 c2 c3 c4 : Char) : Option (List Nat) := do
  let s1 ← charSextet c1
  let s2 ← charSextet c2
  let s3 ← charSextet c3
  let s4 ← charSextet c4
  some [s1 * 4 + s2 / 16, s2 % 16 * 16 + s3 / 4, s3 % 4 * 64 + s4]

/-- Base64-decode a character list (strict, padded). -/
def b64decodeL : List Char → Option (List Nat)
  | [] => some []
  | c1 :: c2 :: c3 :: c4 :: rest =>
    if rest.isEmpty then
      if c3 = '=' && c4 = '=' then do
        let s1 ← charSextet c1
        let s2 ← charSextet c2
        if s2 % 16 = 0 then some [s1 * 4 + s2 / 16] else none
      else if c4 = '=' then do
        let s1 ← charSextet c1
        let s2 ← charSextet c2
        let s3 ← charSextet c3
        if s3 % 4 = 0 then some [s1 * 4 + s2 / 16, s2 % 16 * 16 + s3 / 4] else none
      else do
        let blk ← b64decBlock c1 c2 c3 c4
        some blk
    else do
      let blk ← b64decBlock c1 c2 c3 c4
      let tl ← b64decodeL rest
      some (blk ++ tl)
  | _ => none

/-- `general_purpose::STANDARD.decode` on a `String`. -/
def b64decode (s : String) : Option (List Nat) := b64decodeL s.data

/-! ### Data model of `src/rfc9421/components.rs` and `mod.rs` -/

/-- Lowercase an ASCII letter (model of `str::to_lowercase` on the ASCII
header names used here). -/
def asciiLowerChar (ch : Char) : Char :=
  if 65 ≤ ch.toNat && ch.toNat ≤ 90 then Char.ofNat (ch.toNat + 32) else ch

/-- ASCII lowercasing of a string. -/
def asciiLower (s : String) : String := String.mk (s.data.map asciiLowerChar)

/-- `SignatureComponent` of `components.rs`. -/
inductive SignatureComponent where
  | method
  | targetUri
  | authority
  | scheme
  | requestTarget
  | path
  | query
  | status
  | header (name : String)
  | derivedComponent (name : String) (params : List String)
deriving DecidableEq, Repr

/-- `SignatureComponent::identifier`. -/
def SignatureComponent.identifier : SignatureComponent → String
  | .method => "@method"
  | .targetUri => "@target-uri"
  | .authority => "@authority"
  | .scheme => "@scheme"
  | .requestTarget => "@request-target"
  | .path => "@path"
  | .query => "@query"
  | .status => "@status"
  | .header name => asciiLower name
  | .derivedComponent name params =>
    if params.isEmpty then "@" ++ name
    else "@" ++ name ++ ";" ++ String.intercalate ";" params

/-- `SignatureParams` of `components.rs`. -/
structure SignatureParams where
  key_id : Option String := none
  alg : Option String := none
  created : Option Int := none
  expires : Option Int := none
  nonce : Option String := none
  tag : Option String := none
deriving DecidableEq, Repr

/-- The pieces pushed by the `Display` impl of `SignatureParams`. -/
def SignatureParams.pieces (p : SignatureParams) : List String :=
  (match p.key_id with | some k => ["keyid=\"" ++ k ++ "\""] | none => []) ++
  (match p.alg with | some a => ["alg=\"" ++ a ++ "\""] | none => []) ++
  (match p.created with | some c => ["created=" ++ intDec c] | none => []) ++
  (match p.expires with | some e => ["expires=" ++ intDec e] | none => []) ++
  (match p.nonce with | some n => ["nonce=\"" ++ n ++ "\""] | none => []) ++
  (match p.tag with | some t => ["tag=\"" ++ t ++ "\""] | none => [])

/-- `Vec::join(sep)`. -/
def joinSep (sep : String) : List String → String
  | [] => ""
  | [x] => x
  | x :: xs => x ++ sep ++ joinSep sep xs

/-- The `Display` impl of `SignatureParams` (`params.join(";")`). -/
def SignatureParams.toWire (p : SignatureParams) : String :=
  joinSep ";" p.pieces

/-- `SignatureAlgorithm` of `rfc9421/mod.rs`. -/
inductive SignatureAlgorithm where
  | ed25519
  | ecdsaP256Sha256
  | ecdsaSecp256k1Sha256
deriving DecidableEq, Repr

/-- `SignatureAlgorithm::identifier`. -/
def SignatureAlgorithm.identifier : SignatureAlgorithm → String
  | .ed25519 => "ed25519"
  | .ecdsaP256Sha256 => "ecdsa-p256-sha256"
  | .ecdsaSecp256k1Sha256 => "ecdsa-secp256k1-sha256"

/-- The algorithm variant the signer selects for each key type
(`HttpSigner::build_signature_params`, signer.rs lines 115-118). -/
def signerAlgChoice : KeyType → SignatureAlgorithm
  | .ed25519 => .ed25519
  | .secp256k1 => .ecdsaP256Sha256

/-- `SignatureInput` builder of `rfc9421/mod.rs` (components are pushed as
bare identifiers; `build` inserts a `;` before a non-empty params string). -/
def signatureInputBuild (components : List SignatureComponent) (params : SignatureParams) : String :=
  let comps := joinSep " " (components.map SignatureComponent.identifier)
  let p := params.toWire
  if p = "" then "(" ++ comps ++ ")" else "(" ++ comps ++ ");" ++ p

/-! ### HTTP messages (the parts of the `http` crate the code consults) -/

/-- The projections of `http::Uri` used by `canonicalize.rs`. -/
structure Uri where
  scheme : Option String
  authority : Option String
  path : String
  query : Option String
deriving DecidableEq, Repr

/-- `http::Uri::to_string` reconstruction (scheme, authority, path, query). -/
def Uri.toWire (u : Uri) : String :=
  (match u.scheme with | some s => s ++ "://" | none => "") ++
  (match u.authority with | some a => a | none => "") ++
  u.path ++
  (match u.query with | some q => "?" ++ q | none => "")

/-- An HTTP request: method, URI, and its header map (names lowercase as
the `http` crate normalizes them). -/
structure HttpRequest where
  method : String
  uri : Uri
  headers : List (String × String)
deriving DecidableEq, Repr

/-- `HeaderMap::get(name)` followed by `to_str` (first matching value). -/
def getHeader (headers : List (String × String)) (name : String) : Option String :=
  (headers.find? (fun h => h.1 = name)).map (·.2)

/-- `HeaderMap::get_all(name)`: every value of the named header, in order. -/
def getHeaderAll (headers : List (String × String)) (name : String) : List String :=
  (headers.filter (fun h => h.1 = name)).map (·.2)

/-- `HeaderMap::insert(name, value)`: replaces any existing values. -/
def insertHeader (name value : String) (headers : List (String × String)) :
    List (String × String) :=
  headers.filter (fun h => h.1 ≠ name) ++ [(name, value)]

/-- The characters `HeaderValue::from_str` accepts (visible ASCII, space,
tab; never DEL). -/
def goodHdrChar (ch : Char) : Bool :=
  ch = '\t' || (32 ≤ ch.toNat && ch.toNat ≠ 127)

/-- Whether `HeaderValue::from_str` succeeds on the string. -/
def validHeaderValue (s : String) : Bool := s.data.all goodHdrChar

/-! ### Canonicalization (`src/rfc9421/canonicalize.rs`) -/

/-- `get_header_value` of canonicalize.rs: all values of the header joined
by a comma and space, `InvalidInput` if the header is missing. -/
def get_header_value (headers : List (String × String)) (name : String) : Res String :=
  let values := getHeaderAll headers name
  if values.isEmpty then .error (.invalidInput ("Header " ++ name ++ " not found"))
  else .ok (joinSep ", " values)

/-- The per-component match of `canonicalize_request`. -/
def canonicalizeComponent (req : HttpRequest) : SignatureComponent → Res (String × String)
  | .method => .ok ("@method", req.method)
  | .targetUri => .ok ("@target-uri", req.uri.toWire)
  | .authority =>
    match req.uri.authority with
    | some a => .ok ("@authority", a)
    | none => .error (.invalidInput "Missing authority in URI")
  | .scheme =>
    match req.uri.scheme with
    | some s => .ok ("@scheme", s)
    | none => .error (.invalidInput "Missing scheme in URI")
  | .requestTarget =>
    let q := match req.uri.query with | some q => "?" ++ q | none => ""
    .ok ("@request-target", req.uri.path ++ q)
  | .path => .ok ("@path", req.uri.path)
  | .query =>
    let q := match req.uri.query with | some q => "?" ++ q | none => "?"
    .ok ("@query", q)
  | .status => .error (.invalidInput "@status component not valid for requests")
  | .header name => do
    let v ← get_header_value req.headers (asciiLower name)
    .ok (asciiLower name, v)
  | .derivedComponent _ _ => .error (.unsupported "Custom derived components not yet supported")

/-- `canonicalize_request`: the ordered (identifier, value) list, failing on
the first bad component. -/
def canonicalize_request (req : HttpRequest) : List SignatureComponent → Res (List (String × String))
  | [] => .ok []
  | c :: rest =>
    match canonicalizeComponent req c with
    | .error e => .error e
    | .ok v =>
      match canonicalize_request req rest with
      | .error e => .error e
      | .ok vs => .ok (v :: vs)

/-- `build_signature_base` of canonicalize.rs. -/
def build_signature_base (components : List (String × String)) (signature_params : String) : String :=
  joinSep "\n"
    ((components.map fun nv => "\"" ++ nv.1 ++ "\": " ++ nv.2) ++
      ["\"@signature-params\": " ++ signature_params])

/-! ### Key material (`src/crypto/keys.rs`) -/

/-- `PublicKey` of keys.rs: the algorithm tag with the raw encoded point. -/
inductive PublicKeyE where
  | ed25519 (bytes : List Nat)
  | secp256k1 (bytes : List Nat)
deriving DecidableEq, Repr

/-- `PublicKey::from_bytes` (keys.rs lines 72-95): a length check per
variant and nothing else. -/
def publicKeyFromBytes (key_type : KeyType) (bytes : List Nat) : Res PublicKeyE :=
  match key_type with
  | .ed25519 =>
    if bytes.length ≠ 32 then .error (.invalidInput "Ed25519 public key must be 32 bytes")
    else .ok (.ed25519 bytes)
  | .secp256k1 =>
    if bytes.length ≠ 33 then
      .error (.invalidInput "Secp256k1 public key must be 33 bytes (compressed)")
    else .ok (.secp256k1 bytes)

/-! ### Abstract cryptographic collaborators

The curve libraries (ed25519-dalek, k256) and sha2 are external to the
RFC 9421 engine.  `CryptoModel` packages them: key pairs, public keys, the
key-id string (sha2+hex of the public key bytes), raw signing, signature
parsing and verification, with exactly the contracts the crate's own
key-generation and signing paths provide. -/
structure CryptoModel where
  Pair : Type
  Pub : Type
  pubOf : Pair → Pub
  keyType : Pub → KeyType
  keyId : Pub → String
  sign : Pair → List Nat → List Nat
  verify : Pub → List Nat → List Nat → Bool
  edParses : List Nat → Bool
  derParses : List Nat → Bool
  raw64Parses : List Nat → Bool
  sign_verify : ∀ kp m, verify (pubOf kp) m (sign kp m) = true
  ed_sig_len : ∀ kp m, keyType (pubOf kp) = KeyType.ed25519 → (sign kp m).length = 64
  ed_sig_parses : ∀ kp m, keyType (pubOf kp) = KeyType.ed25519 → edParses (sign kp m) = true
  secp_sig_der : ∀ kp m, keyType (pubOf kp) = KeyType.secp256k1 → derParses (sign kp m) = true
  keyId_hex : ∀ p, ((keyId p).data.all isHexLowerB) = true
  sign_bytes : ∀ kp m, ((sign kp m).all fun b => b < 256) = true

/-- UTF-8 bytes of an ASCII string (`str::as_bytes`). -/
def strBytes (s : String) : List Nat := s.data.map Char.toNat

/-! ### Signing (`src/rfc9421/signer.rs`) -/

/-- The signer's default component list (`HttpSigner::new`). -/
def defaultComponents : List SignatureComponent :=
  [.method, .path, .authority]

/-- `HttpSigner::build_signature_params` (signer.rs lines 109-128), with the
clock reading abstracted into the `now` argument. -/
def build_signature_params (kt : KeyType) (keyId : String) (now : Int) : SignatureParams :=
  { key_id := some keyId
    alg := some (signerAlgChoice kt).identifier
    created := some now
    expires := some (now + 300)
    nonce := none
    tag := none }

/-- `HttpSigner::build_signature_input` (signer.rs lines 131-142): quoted
identifiers joined by spaces in parentheses, the params string appended
directly. -/
def build_signature_input (components : List SignatureComponent) (params : SignatureParams) : String :=
  let ids := joinSep " " (components.map fun c => "\"" ++ c.identifier ++ "\"")
  "(" ++ ids ++ ")" ++ params.toWire

/-- `HttpSigner::sign_request` (signer.rs lines 36-68), over the abstract
crypto model, the signer's component list and the clock reading. -/
def sign_request (M : CryptoModel) (kp : M.Pair) (now : Int) (req : HttpRequest) : Res HttpRequest :=
  let params := build_signature_params (M.keyType (M.pubOf kp)) (M.keyId (M.pubOf kp)) now
  match canonicalize_request req defaultComponents with
  | .error e => .error e
  | .ok canonical =>
    let sigInput := build_signature_input defaultComponents params
    let base := build_signature_base canonical sigInput
    let sigValue := b64encode (M.sign kp (strBytes base))
    let h1 := "sig1=" ++ sigInput
    let h2 := "sig1=:" ++ sigValue
    if validHeaderValue h1 = false then .error (.invalidInput "Invalid signature input")
    else if validHeaderValue h2 = false then .error (.invalidInput "Invalid signature value")
    else .ok { req with headers := insertHeader "signature" h2 (insertHeader "signature-input" h1 req.headers) }

/-! ### Verification (`src/rfc9421/verifier.rs`) -/

/-- `extract_signature_headers` (verifier.rs lines 143-168). -/
def extract_signature_headers (headers : List (String × String)) : Res (String × String) :=
  match getHeader headers "signature" with
  | none => .error (.invalidInput "Missing signature header")
  | some sigHeader =>
    match getHeader headers "signature-input" with
    | none => .error (.invalidInput "Missing signature-input header")
    | some sigInputHeader =>
      match dropPfx "sig1=:" sigHeader with
      | none => .error (.invalidInput "Invalid signature header format")
      | some sigValue =>
        match dropPfx "sig1=" sigInputHeader with
        | none => .error (.invalidInput "Invalid signature-input header format")
        | some sigInput => .ok (sigValue, sigInput)

/-- The component-identifier match of `parse_signature_input`. -/
def parseComponentId (token : List Char) : Res SignatureComponent :=
  let cid := trimMatchesL '"' token
  if cid = "@method".data then .ok .method
  else if cid = "@target-uri".data then .ok .targetUri
  else if cid = "@authority".data then .ok .authority
  else if cid = "@scheme".data then .ok .scheme
  else if cid = "@request-target".data then .ok .requestTarget
  else if cid = "@path".data then .ok .path
  else if cid = "@query".data then .ok .query
  else if cid = "@status".data then .ok .status
  else if isPfxL "@".data cid then
    .error (.unsupported ("Unsupported derived component: " ++ String.mk cid))
  else .ok (.header (String.mk cid))

/-- Component parsing over the whitespace-split tokens. -/
def parseComponentList : List (List Char) → Res (List SignatureComponent)
  | [] => .ok []
  | t :: ts =>
    match parseComponentId t with
    | .error e => .error e
    | .ok c =>
      match parseComponentList ts with
      | .error e => .error e
      | .ok cs => .ok (c :: cs)

/-- One iteration of the parameter loop of `parse_signature_input`
(verifier.rs lines 210-221): trim, test the four known prefixes, and byte-slice
past `name="` (the quoted params) or `name=` (the integer params). -/
def applyParam (p : SignatureParams) (chunk : List Char) : SignatureParams :=
  let c := trimL chunk
  if isPfxL "keyid=".data c then
    { p with key_id := some (String.mk (trimMatchesL '"' (c.drop 7))) }
  else if isPfxL "alg=".data c then
    { p with alg := some (String.mk (trimMatchesL '"' (c.drop 5))) }
  else if isPfxL "created=".data c then
    { p with created := parseI64L (c.drop 8) }
  else if isPfxL "expires=".data c then
    { p with expires := parseI64L (c.drop 8) }
  else p

/-- `parse_signature_input` (verifier.rs lines 171-224). -/
def parse_signature_input (input : String) : Res (List SignatureComponent × SignatureParams) :=
  match splitFirst ')' input.data with
  | none => .error (.invalidInput "Invalid signature input format")
  | some (before, after) =>
    let componentsStr := before.dropWhile (· = '(')
    match parseComponentList (splitWsL componentsStr) with
    | .error e => .error e
    | .ok components =>
      let params := (splitOnChar ';' after).foldl applyParam {}
      .ok (components, params)

/-- `verify_signature_params` (verifier.rs lines 227-262): the created /
expires / key-id checks, in the code's order, against the clock reading
`now` and the verifier key's `key_id()`. -/
def verify_signature_params (params : SignatureParams) (pubKeyId : String) (now : Int) : Res Unit :=
  match params.created with
  | some created =>
    if now + 300 < created then .error (.verification "Signature created in the future")
    else
      match params.expires with
      | some expires =>
        if expires < now then .error (.verification "Signature expired")
        else
          match params.key_id with
          | some k => if k ≠ pubKeyId then .error (.verification "Key ID mismatch") else .ok ()
          | none => .ok ()
      | none =>
        match params.key_id with
        | some k => if k ≠ pubKeyId then .error (.verification "Key ID mismatch") else .ok ()
        | none => .ok ()
  | none =>
    match params.expires with
    | some expires =>
      if expires < now then .error (.verification "Signature expired")
      else
        match params.key_id with
        | some k => if k ≠ pubKeyId then .error (.verification "Key ID mismatch") else .ok ()
        | none => .ok ()
    | none =>
      match params.key_id with
      | some k => if k ≠ pubKeyId then .error (.verification "Key ID mismatch") else .ok ()
      | none => .ok ()

/-- The signature-decoding and cryptographic check at the tail of
`HttpVerifier::verify_request` (verifier.rs lines 44-78). -/
def verifyDecoded (M : CryptoModel) (pk : M.Pub) (base : String) (sigBytes : List Nat) : Res Unit :=
  match M.keyType pk with
  | .ed25519 =>
    if sigBytes.length ≠ 64 then .error (.invalidInput "Ed25519 signature must be 64 bytes")
    else if M.edParses sigBytes then
      (if M.verify pk (strBytes base) sigBytes then .ok ()
       else .error (.verification "Ed25519 signature verification failed"))
    else .error (.invalidInput "Invalid Ed25519 signature")
  | .secp256k1 =>
    if M.derParses sigBytes then
      (if M.verify pk (strBytes base) sigBytes then .ok ()
       else .error (.verification "Secp256k1 signature verification failed"))
    else if sigBytes.length = 64 then
      (if M.raw64Parses sigBytes then
        (if M.verify pk (strBytes base) sigBytes then .ok ()
         else .error (.verification "Secp256k1 signature verification failed"))
       else .error (.invalidInput "Invalid ECDSA signature"))
    else .error (.invalidInput "Invalid Secp256k1 signature format")

/-- `HttpVerifier::verify_request` (verifier.rs lines 22-79), with the clock
reading abstracted into `now`. -/
def verify_request (M : CryptoModel) (pk : M.Pub) (now : Int) (req : HttpRequest) : Res Unit :=
  match extract_signature_headers req.headers with
  | .error e => .error e
  | .ok (sigValue, sigInput) =>
    match parse_signature_input sigInput with
    | .error e => .error e
    | .ok (components, params) =>
      match verify_signature_params params (M.keyId pk) now with
      | .error e => .error e
      | .ok _ =>
        match canonicalize_request req components with
        | .error e => .error e
        | .ok canonical =>
          let base := build_signature_base canonical sigInput
          match b64decode sigValue with
          | none => .error (.invalidInput "Invalid base64 signature")
          | some sigBytes => verifyDecoded M pk base sigBytes

/-! ### Concrete instances used to evaluate the embedded code -/

/-- A concrete crypto model witnessing the `CryptoModel` contracts: one
Ed25519 key whose signatures are 64 fixed bytes. -/
def M₀ : CryptoModel where
  Pair := Unit
  Pub := Unit
  pubOf := id
  keyType := fun _ => .ed25519
  keyId := fun _ => "0123456789abcdef"
  sign := fun _ _ => List.replicate 64 7
  verify := fun _ _ s => s == List.replicate 64 7
  edParses := fun _ => true
  derParses := fun _ => false
  raw64Parses := fun _ => true
  sign_verify := fun _ _ => rfl
  ed_sig_len := fun _ _ _ => rfl
  ed_sig_parses := fun _ _ _ => rfl
  secp_sig_der := fun _ _ h => nomatch h
  keyId_hex := fun _ => rfl
  sign_bytes := fun _ _ => rfl

/-- `POST https://example.com/foo` with no headers. -/
def req₀ : HttpRequest :=
  { method := "POST"
    uri := { scheme := some "https", authority := some "example.com", path := "/foo", query := none }
    headers := [] }

/-- A request whose URI has no authority (like `GET /`). -/
def reqNoAuth : HttpRequest :=
  { method := "GET"
    uri := { scheme := none, authority := none, path := "/", query := none }
    headers := [] }

/-- Signature headers carrying a key id that does not match `M₀`, on a
request whose URI has no authority. -/
def req₇ : HttpRequest :=
  { method := "GET"
    uri := { scheme := none, authority := none, path := "/", query := none }
    headers := [("signature", "sig1=:QQ==:"),
                ("signature-input", "sig1=(\"@authority\")keyid=\"deadbeef\"")] }

/-- Signature headers whose only dictionary label is `sig0`. -/
def hdrs₈ : List (String × String) :=
  [("signature", "sig0=:QQ==:"), ("signature-input", "sig0=(\"@method\")")]

/-- A request with a query string. -/
def reqQuery : HttpRequest :=
  { method := "GET"
    uri := { scheme := some "https", authority := some "example.com", path := "/p",
             query := some "a=1&b=2" }
    headers := [] }

/-- The canonicalization-dependent part of `sign_request`: the exact
signature-base string the signer signs. -/
def signingBase (M : CryptoModel) (kp : M.Pair) (now : Int) (req : HttpRequest) : Res String :=
  let params := build_signature_params (M.keyType (M.pubOf kp)) (M.keyId (M.pubOf kp)) now
  match canonicalize_request req defaultComponents with
  | .error e => .error e
  | .ok canonical =>
    .ok (build_signature_base canonical (build_signature_input defaultComponents params))

/-- Extra signature headers used when exercising the verifier's parser. -/
def hdrs₃ : List (String × String) :=
  [("signature", "sig1=:QQ==:"), ("signature-input", "sig1=(\"@method\")")]

/-- The concrete request produced by signing `req₀` with `M₀` at time 1000. -/
def signed₀ : HttpRequest :=
  { req₀ with headers :=
      (insertHeader "signature" ("sig1=:" ++ b64encode (List.replicate 64 7))
        (insertHeader "signature-input"
          ("sig1=(\"@method\" \"@path\" \"@authority\")keyid=\"0123456789abcdef\";alg=\"ed25519\";created=1000;expires=1300")
          [])) }

/-! ## Lemmas: strings and lists -/

theorem data_append (a b : String) : (a ++ b).data = a.data ++ b.data := rfl

theorem mk_data (s : String) : String.mk s.data = s := rfl

theorem dropPfxL_self_append (p l : List Char) : dropPfxL p (p ++ l) = some l := by
  induction p with
  | nil => rfl
  | cons x xs ih => simp [dropPfxL, ih]

theorem dropPfx_self_append (p s : String) : dropPfx p (p ++ s) = some s := by
  simp [dropPfx, data_append, dropPfxL_self_append, mk_data]

theorem isPfxL_self_append (p l : List Char) : isPfxL p (p ++ l) = true := by
  simp [isPfxL, dropPfxL_self_append]

theorem isPfxL_cons_ne {a b : Char} (ps xs : List Char) (hne : b ≠ a) :
    isPfxL (a :: ps) (b :: xs) = false := by
  simp [isPfxL, dropPfxL, hne]

theorem splitFirst_of_not_mem {c : Char} {l₁ : List Char} (h : c ∉ l₁) (l₂ : List Char) :
    splitFirst c (l₁ ++ c :: l₂) = some (l₁, l₂) := by
  induction l₁ with
  | nil => simp [splitFirst]
  | cons x xs ih =>
    have hx : x ≠ c := by intro hc; exact h (hc ▸ List.mem_cons_self x xs)
    have hxs : c ∉ xs := fun hc => h (List.mem_cons_of_mem x hc)
    simp [splitFirst, hx, ih hxs]

theorem splitOnChar_of_not_mem {c : Char} {l₁ : List Char} (h : c ∉ l₁) (l₂ : List Char) :
    splitOnChar c (l₁ ++ c :: l₂) = l₁ :: splitOnChar c l₂ := by
  induction l₁ with
  | nil => simp [splitOnChar]
  | cons x xs ih =>
    have hx : x ≠ c := by intro hc; exact h (hc ▸ List.mem_cons_self x xs)
    have hxs : c ∉ xs := fun hc => h (List.mem_cons_of_mem x hc)
    rw [List.cons_append, splitOnChar]
    simp only [hx, if_false, ih hxs]

theorem splitOnChar_no_sep {c : Char} {l : List Char} (h : c ∉ l) :
    splitOnChar c l = [l] := by
  induction l with
  | nil => rfl
  | cons x xs ih =>
    have hx : x ≠ c := by intro hc; exact h (hc ▸ List.mem_cons_self x xs)
    have hxs : c ∉ xs := fun hc => h (List.mem_cons_of_mem x hc)
    rw [splitOnChar]
    simp only [hx, if_false, ih hxs]

theorem dropWhile_of_all_false {p : Char → Bool} {l : List Char}
    (h : ∀ x ∈ l, p x = false) : l.dropWhile p = l := by
  cases l with
  | nil => rfl
  | cons x xs => simp [List.dropWhile, h x (List.mem_cons_self x xs)]

theorem dropRightWhileL_of_all_false {p : Char → Bool} {l : List Char}
    (h : ∀ x ∈ l, p x = false) : dropRightWhileL p l = l := by
  unfold dropRightWhileL
  rw [dropWhile_of_all_false (fun x hx => h x (List.mem_reverse.mp hx))]
  exact List.reverse_reverse l

theorem trimL_of_all_not_ws {l : List Char} (h : ∀ x ∈ l, isWsChar x = false) :
    trimL l = l := by
  unfold trimL
  rw [dropWhile_of_all_false h, dropRightWhileL_of_all_false h]

theorem dropRightWhileL_append_true {p : Char → Bool} {x : Char} {l : List Char}
    (hx : p x = true) (h : ∀ y ∈ l, p y = false) :
    dropRightWhileL p (l ++ [x]) = l := by
  unfold dropRightWhileL
  rw [List.reverse_append]
  simp only [List.reverse_cons, List.reverse_nil, List.nil_append, List.singleton_append]
  rw [List.dropWhile_cons, if_pos hx]
  rw [dropWhile_of_all_false (fun y hy => h y (List.mem_reverse.mp hy))]
  exact List.reverse_reverse l

theorem trimMatchesL_quote {l : List Char} (h : ∀ x ∈ l, x ≠ '"') :
    trimMatchesL '"' (l ++ ['"']) = l := by
  unfold trimMatchesL
  cases l with
  | nil => rfl
  | cons y ys =>
    have hy : y ≠ '"' := h y (List.mem_cons_self y ys)
    rw [List.cons_append, List.dropWhile_cons, if_neg (by simp [hy])]
    rw [← List.cons_append]
    exact dropRightWhileL_append_true (by simp)
      (fun z hz => by simp [h z hz])

theorem drop_length_append (l₁ l₂ : List Char) : (l₁ ++ l₂).drop l₁.length = l₂ := by
  induction l₁ with
  | nil => rfl
  | cons x xs ih => simpa using ih

/-! ## Lemmas: header map operations -/

theorem getHeader_insert_self (n v : String) (hs : List (String × String)) :
    getHeader (insertHeader n v hs) n = some v := by
  unfold getHeader insertHeader
  induction hs with
  | nil => simp [List.find?]
  | cons h t ih =>
    by_cases hn : h.1 = n
    · simpa [hn] using ih
    · simpa [List.filter_cons, hn, List.find?] using ih

theorem getHeader_insert_ne (n n' v : String) (hs : List (String × String)) (hne : n' ≠ n) :
    getHeader (insertHeader n v hs) n' = getHeader hs n' := by
  unfold getHeader insertHeader
  induction hs with
  | nil =>
    rw [List.filter_nil, List.nil_append,
      List.find?_cons_of_neg _ (by simp [Ne.symm hne]), List.find?_nil]
  | cons h t ih =>
    by_cases hn : h.1 = n
    · have hnn' : ¬(h.1 = n') := by rw [hn]; exact Ne.symm hne
      rw [List.filter_cons, if_neg (by simp [hn]),
        List.find?_cons_of_neg _ (by simp [hnn'])]
      exact ih
    · rw [List.filter_cons, if_pos (by simp [hn]), List.cons_append]
      by_cases hn' : h.1 = n'
      · rw [List.find?_cons_of_pos _ (by simp [hn']),
          List.find?_cons_of_pos _ (by simp [hn'])]
      · rw [List.find?_cons_of_neg _ (by simp [hn']),
          List.find?_cons_of_neg _ (by simp [hn'])]
        exact ih

/-! ## Lemmas: decimal formatting and parsing -/

theorem digitChar_toNat {n : Nat} (h : n < 10) : (digitChar n).toNat = 48 + n := by
  interval_cases n <;> rfl

theorem natDecAux_irrel (n : Nat) : ∀ f1 f2, n < f1 → n < f2 →
    natDecAux f1 n = natDecAux f2 n := by
  induction n using Nat.strong_induction_on with
  | _ n ih =>
    intro f1 f2 h1 h2
    cases f1 with
    | zero => omega
    | succ f1 =>
      cases f2 with
      | zero => omega
      | succ f2 =>
        by_cases h : n < 10
        · simp [natDecAux, h]
        · simp only [natDecAux, if_neg h]
          rw [ih (n / 10) (Nat.div_lt_self (by omega) (by omega)) f1 f2 (by omega) (by omega)]

theorem natDec_eq (n : Nat) : natDec n =
    if n < 10 then [digitChar n] else natDec (n / 10) ++ [digitChar (n % 10)] := by
  by_cases h : n < 10
  · simp [natDec, natDecAux, h]
  · unfold natDec
    show natDecAux (n + 1) n = _
    rw [show natDecAux (n + 1) n =
      (if n < 10 then [digitChar n] else natDecAux n (n / 10) ++ [digitChar (n % 10)])
      from rfl]
    rw [if_neg h, if_neg h]
    rw [natDecAux_irrel (n / 10) n (n / 10 + 1) (by omega) (by omega)]

theorem natDec_all_digits (n : Nat) : ∀ c ∈ natDec n, isDigitB c = true := by
  induction n using Nat.strong_induction_on with
  | _ n ih =>
    intro c hc
    rw [natDec_eq] at hc
    by_cases h : n < 10
    · rw [if_pos h] at hc
      simp only [List.mem_singleton] at hc
      subst hc
      simp [isDigitB, digitChar_toNat h]
      omega
    · rw [if_neg h] at hc
      rcases List.mem_append.mp hc with h1 | h2
      · exact ih (n / 10) (Nat.div_lt_self (by omega) (by omega)) c h1
      · simp only [List.mem_singleton] at h2
        subst h2
        have h10 : n % 10 < 10 := Nat.mod_lt n (by omega)
        simp [isDigitB, digitChar_toNat h10]
        omega

theorem natDec_ne_nil (n : Nat) : natDec n ≠ [] := by
  rw [natDec_eq]
  by_cases h : n < 10
  · rw [if_pos h]; simp
  · rw [if_neg h]; simp

theorem digitsVal_natDec (n : Nat) : digitsVal (natDec n) = n := by
  induction n using Nat.strong_induction_on with
  | _ n ih =>
    rw [natDec_eq]
    by_cases h : n < 10
    · rw [if_pos h]
      simp [digitsVal, digitChar_toNat h]
    · rw [if_neg h]
      unfold digitsVal
      rw [List.foldl_append]
      have hrec := ih (n / 10) (Nat.div_lt_self (by omega) (by omega))
      unfold digitsVal at hrec
      rw [hrec]
      have h10 : n % 10 < 10 := Nat.mod_lt n (by omega)
      simp [digitChar_toNat h10]
      omega

theorem parseSign_of_digits {l : List Char} (hne : l ≠ [])
    (h : ∀ c ∈ l, isDigitB c = true) : parseSign l = (false, l) := by
  cases l with
  | nil => exact absurd rfl hne
  | cons x xs =>
    have hx : isDigitB x = true := h x (List.mem_cons_self x xs)
    have h1 : x ≠ '+' := by
      intro hc; subst hc; simp [isDigitB] at hx
    have h2 : x ≠ '-' := by
      intro hc; subst hc; simp [isDigitB] at hx
    simp [parseSign, h1, h2]

theorem parseI64_intDec (i : Int) :
    parseI64 (intDec i) = some i ∨ parseI64 (intDec i) = none := by
  unfold parseI64 intDec
  by_cases hneg : i < 0
  · rw [if_pos hneg]
    show parseI64L ('-' :: natDec (-i).toNat) = some i ∨ _ = none
    have hsign : parseSign ('-' :: natDec (-i).toNat) = (true, natDec (-i).toNat) := by
      simp [parseSign]
    unfold parseI64L
    rw [hsign]
    dsimp only
    have hall := natDec_all_digits (-i).toNat
    have hne := natDec_ne_nil (-i).toNat
    rw [if_neg (by simpa [List.isEmpty_iff] using hne)]
    rw [if_pos (List.all_eq_true.mpr hall)]
    rw [if_pos rfl]
    simp only [digitsVal_natDec]
    by_cases hb : (-i).toNat ≤ 2 ^ 63
    · left
      rw [if_pos hb]
      have hni : (((-i).toNat : Int)) = -i := Int.toNat_of_nonneg (by omega)
      rw [hni]
      simp
    · right
      rw [if_neg hb]
  · rw [if_neg hneg]
    show parseI64L (natDec i.toNat) = some i ∨ _ = none
    have hall := natDec_all_digits i.toNat
    have hne := natDec_ne_nil i.toNat
    unfold parseI64L
    rw [parseSign_of_digits hne hall]
    dsimp only
    rw [if_neg (by simpa [List.isEmpty_iff] using hne)]
    rw [if_pos (List.all_eq_true.mpr hall)]
    rw [if_neg (by simp)]
    simp only [digitsVal_natDec]
    by_cases hb : i.toNat ≤ 2 ^ 63 - 1
    · left
      rw [if_pos hb]
      have hni : ((i.toNat : Int)) = i := Int.toNat_of_nonneg (by omega)
      rw [hni]
    · right
      rw [if_neg hb]

/-! ## Lemmas: base64 -/

theorem charSextet_sextetChar : ∀ n, n < 64 → charSextet (sextetChar n) = some n := by
  decide

theorem sextetChar_good : ∀ n, n < 64 →
    goodHdrChar (sextetChar n) = true ∧ sextetChar n ≠ ':' ∧ sextetChar n ≠ '=' := by
  decide

theorem b64encodeL_ne_nil {bs : List Nat} (h : bs ≠ []) : b64encodeL bs ≠ [] := by
  rcases bs with _ | ⟨x, _ | ⟨y, _ | ⟨z, t⟩⟩⟩ <;> simp_all [b64encodeL]

theorem b64_roundtrip : ∀ bs : List Nat, (∀ b ∈ bs, b < 256) →
    b64decodeL (b64encodeL bs) = some bs := by
  intro bs
  induction bs using b64encodeL.induct with
  | case1 => intro _; rfl
  | case2 a =>
    intro h
    have ha : a < 256 := h a (by simp)
    simp only [b64encodeL, b64decodeL, List.isEmpty_nil, if_true]
    rw [if_pos (by simp)]
    rw [charSextet_sextetChar (a / 4) (by omega),
      charSextet_sextetChar (a % 4 * 16) (by omega)]
    simp only [Option.bind_eq_bind, Option.some_bind]
    rw [if_pos (by omega)]
    simp only [Option.some.injEq, List.cons.injEq, and_true]
    omega
  | case3 a b =>
    intro h
    have ha : a < 256 := h a (by simp)
    have hb : b < 256 := h b (by simp)
    have h3 : sextetChar (b % 16 * 4) ≠ '=' := (sextetChar_good (b % 16 * 4) (by omega)).2.2
    simp only [b64encodeL, b64decodeL, List.isEmpty_nil, if_true]
    rw [if_neg (by simp [h3])]
    rw [charSextet_sextetChar (a / 4) (by omega),
      charSextet_sextetChar (a % 4 * 16 + b / 16) (by omega),
      charSextet_sextetChar (b % 16 * 4) (by omega)]
    simp only [Option.bind_eq_bind, Option.some_bind]
    rw [if_pos (by omega)]
    simp only [Option.some.injEq, List.cons.injEq, and_true]
    omega
  | case4 a b c rest ih =>
    intro h
    have ha : a < 256 := h a (by simp)
    have hb : b < 256 := h b (by simp)
    have hc : c < 256 := h c (by simp)
    have h3 : sextetChar (b % 16 * 4 + c / 64) ≠ '=' :=
      (sextetChar_good (b % 16 * 4 + c / 64) (by omega)).2.2
    have h4 : sextetChar (c % 64) ≠ '=' := (sextetChar_good (c % 64) (by omega)).2.2
    by_cases hr : rest = []
    · subst hr
      simp only [b64encodeL, b64decodeL, List.isEmpty_nil, if_true]
      rw [if_neg (by simp [h3, h4]), if_neg (by simp [h4])]
      unfold b64decBlock
      rw [charSextet_sextetChar (a / 4) (by omega),
        charSextet_sextetChar (a % 4 * 16 + b / 16) (by omega),
        charSextet_sextetChar (b % 16 * 4 + c / 64) (by omega),
        charSextet_sextetChar (c % 64) (by omega)]
      simp only [Option.bind_eq_bind, Option.some_bind, Option.some.injEq,
        List.cons.injEq, and_true]
      omega
    · have htl : b64decodeL (b64encodeL rest) = some rest :=
        ih (fun x hx => h x (by simp [hx]))
      simp only [b64encodeL, b64decodeL]
      rw [if_neg (by simp [List.isEmpty_iff, b64encodeL_ne_nil hr])]
      unfold b64decBlock
      rw [charSextet_sextetChar (a / 4) (by omega),
        charSextet_sextetChar (a % 4 * 16 + b / 16) (by omega),
        charSextet_sextetChar (b % 16 * 4 + c / 64) (by omega),
        charSextet_sextetChar (c % 64) (by omega), htl]
      simp only [Option.bind_eq_bind, Option.some_bind, Option.some.injEq,
        List.cons_append, List.nil_append, List.cons.injEq, and_true]
      omega

theorem b64_chars_good : ∀ bs : List Nat, (∀ b ∈ bs, b < 256) →
    ∀ ch ∈ b64encodeL bs, goodHdrChar ch = true ∧ ch ≠ ':' := by
  intro bs
  induction bs using b64encodeL.induct with
  | case1 => intro _ ch hch; simp [b64encodeL] at hch
  | case2 a =>
    intro h ch hch
    have ha : a < 256 := h a (by simp)
    simp only [b64encodeL, List.mem_cons, List.mem_singleton, List.not_mem_nil,
      or_false] at hch
    rcases hch with rfl | rfl | rfl | rfl
    · exact ⟨(sextetChar_good _ (by omega)).1, (sextetChar_good _ (by omega)).2.1⟩
    · exact ⟨(sextetChar_good _ (by omega)).1, (sextetChar_good _ (by omega)).2.1⟩
    · exact ⟨by decide, by decide⟩
    · exact ⟨by decide, by decide⟩
  | case3 a b =>
    intro h ch hch
    have ha : a < 256 := h a (by simp)
    have hb : b < 256 := h b (by simp)
    simp only [b64encodeL, List.mem_cons, List.mem_singleton, List.not_mem_nil,
      or_false] at hch
    rcases hch with rfl | rfl | rfl | rfl
    · exact ⟨(sextetChar_good _ (by omega)).1, (sextetChar_good _ (by omega)).2.1⟩
    · exact ⟨(sextetChar_good _ (by omega)).1, (sextetChar_good _ (by omega)).2.1⟩
    · exact ⟨(sextetChar_good _ (by omega)).1, (sextetChar_good _ (by omega)).2.1⟩
    · exact ⟨by decide, by decide⟩
  | case4 a b c rest ih =>
    intro h ch hch
    have ha : a < 256 := h a (by simp)
    have hb : b < 256 := h b (by simp)
    have hc : c < 256 := h c (by simp)
    simp only [b64encodeL, List.mem_cons] at hch
    rcases hch with rfl | rfl | rfl | rfl | h1
    · exact ⟨(sextetChar_good _ (by omega)).1, (sextetChar_good _ (by omega)).2.1⟩
    · exact ⟨(sextetChar_good _ (by omega)).1, (sextetChar_good _ (by omega)).2.1⟩
    · exact ⟨(sextetChar_good _ (by omega)).1, (sextetChar_good _ (by omega)).2.1⟩
    · exact ⟨(sextetChar_good _ (by omega)).1, (sextetChar_good _ (by omega)).2.1⟩
    · exact ih (fun x hx => h x (by simp [hx])) ch h1

/-! ## Lemmas: character classes -/

theorem hex_not_semi {ch : Char} (h : isHexLowerB ch = true) : ch ≠ ';' :=
  fun he => absurd (he ▸ h) (by decide)

theorem hex_not_quote {ch : Char} (h : isHexLowerB ch = true) : ch ≠ '"' :=
  fun he => absurd (he ▸ h) (by decide)

theorem hex_not_ws {ch : Char} (h : isHexLowerB ch = true) : isWsChar ch = false := by
  have h1 : ch ≠ ' ' := fun he => absurd (he ▸ h) (by decide)
  have h2 : ch ≠ '\t' := fun he => absurd (he ▸ h) (by decide)
  have h3 : ch ≠ '\n' := fun he => absurd (he ▸ h) (by decide)
  have h4 : ch ≠ '\r' := fun he => absurd (he ▸ h) (by decide)
  simp [isWsChar, h1, h2, h3, h4]

theorem hex_good {ch : Char} (h : isHexLowerB ch = true) : goodHdrChar ch = true := by
  simp only [isHexLowerB, Bool.or_eq_true, Bool.and_eq_true, decide_eq_true_eq] at h
  simp only [goodHdrChar, Bool.or_eq_true, Bool.and_eq_true, decide_eq_true_eq,
    bne_iff_ne, ne_eq]
  right
  omega

theorem digitOrMinus_not_semi {ch : Char} (h : isDigitB ch = true ∨ ch = '-') : ch ≠ ';' := by
  rcases h with h | h
  · exact fun he => absurd (he ▸ h) (by decide)
  · subst h; decide

theorem digitOrMinus_not_quote {ch : Char} (h : isDigitB ch = true ∨ ch = '-') : ch ≠ '"' := by
  rcases h with h | h
  · exact fun he => absurd (he ▸ h) (by decide)
  · subst h; decide

theorem digitOrMinus_not_ws {ch : Char} (h : isDigitB ch = true ∨ ch = '-') :
    isWsChar ch = false := by
  rcases h with h | h
  · have h1 : ch ≠ ' ' := fun he => absurd (he ▸ h) (by decide)
    have h2 : ch ≠ '\t' := fun he => absurd (he ▸ h) (by decide)
    have h3 : ch ≠ '\n' := fun he => absurd (he ▸ h) (by decide)
    have h4 : ch ≠ '\r' := fun he => absurd (he ▸ h) (by decide)
    simp [isWsChar, h1, h2, h3, h4]
  · subst h; decide

theorem digitOrMinus_good {ch : Char} (h : isDigitB ch = true ∨ ch = '-') :
    goodHdrChar ch = true := by
  rcases h with h | h
  · simp only [isDigitB, Bool.and_eq_true, decide_eq_true_eq] at h
    simp only [goodHdrChar, Bool.or_eq_true, Bool.and_eq_true, decide_eq_true_eq,
      bne_iff_ne, ne_eq]
    right
    omega
  · subst h; decide

theorem intDec_chars (i : Int) : ∀ c ∈ (intDec i).data, isDigitB c = true ∨ c = '-' := by
  unfold intDec
  by_cases hneg : i < 0
  · rw [if_pos hneg]
    intro c hc
    rcases List.mem_cons.mp hc with h | h
    · right; exact h
    · left; exact natDec_all_digits _ c h
  · rw [if_neg hneg]
    intro c hc
    left
    exact natDec_all_digits _ c hc

/-! ## Lemmas: header-value validity -/

theorem validHeaderValue_append (a b : String) :
    validHeaderValue (a ++ b) = (validHeaderValue a && validHeaderValue b) := by
  simp [validHeaderValue, data_append, List.all_append]

theorem validHeaderValue_of_forall {s : String}
    (h : ∀ c ∈ s.data, goodHdrChar c = true) : validHeaderValue s = true :=
  List.all_eq_true.mpr h

/-! ## Lemmas: the parameter parser on signer-shaped chunks -/

theorem isPfxL_cons_ne' (a b : Char) (ps xs : List Char) (hne : b ≠ a) :
    isPfxL (a :: ps) (b :: xs) = false := by
  simp [isPfxL, dropPfxL, hne]

theorem applyParam_keyid (p : SignatureParams) (K : String)
    (hK : ∀ c ∈ K.data, isHexLowerB c = true) :
    applyParam p ("keyid=\"".data ++ K.data ++ ['"']) = { p with key_id := some K } := by
  unfold applyParam
  have hlit : ∀ y ∈ "keyid=\"".data, isWsChar y = false := by decide
  have htrim : trimL ("keyid=\"".data ++ K.data ++ ['"']) =
      "keyid=\"".data ++ K.data ++ ['"'] := by
    apply trimL_of_all_not_ws
    intro x hx
    simp only [List.append_assoc, List.mem_append, List.mem_singleton] at hx
    rcases hx with hx | hx | hx
    · exact hlit x hx
    · exact hex_not_ws (hK x hx)
    · subst hx; decide
  rw [htrim]
  have hshape : "keyid=\"".data ++ K.data ++ ['"'] =
      "keyid=".data ++ ('"' :: (K.data ++ ['"'])) := by
    simp
  have hpfx : isPfxL "keyid=".data ("keyid=\"".data ++ K.data ++ ['"']) = true := by
    rw [hshape]; exact isPfxL_self_append _ _
  rw [if_pos hpfx]
  have hdrop : ("keyid=\"".data ++ K.data ++ ['"']).drop 7 = K.data ++ ['"'] := by
    have h7 := drop_length_append ("keyid=\"".data) (K.data ++ ['"'])
    rw [show ("keyid=\"".data).length = 7 from rfl] at h7
    rw [← List.append_assoc] at h7
    exact h7
  rw [hdrop]
  rw [trimMatchesL_quote (fun x hx => hex_not_quote (hK x hx))]

theorem applyParam_alg (p : SignatureParams) (A : String)
    (hA : ∀ c ∈ A.data, c ≠ '"' ∧ isWsChar c = false) :
    applyParam p ("alg=\"".data ++ A.data ++ ['"']) = { p with alg := some A } := by
  unfold applyParam
  have hlit : ∀ y ∈ "alg=\"".data, isWsChar y = false := by decide
  have htrim : trimL ("alg=\"".data ++ A.data ++ ['"']) =
      "alg=\"".data ++ A.data ++ ['"'] := by
    apply trimL_of_all_not_ws
    intro x hx
    simp only [List.append_assoc, List.mem_append, List.mem_singleton] at hx
    rcases hx with hx | hx | hx
    · exact hlit x hx
    · exact (hA x hx).2
    · subst hx; decide
  rw [htrim]
  have hnk : isPfxL "keyid=".data ("alg=\"".data ++ A.data ++ ['"']) = false := by
    rw [show "alg=\"".data ++ A.data ++ ['"'] =
      'a' :: ("lg=\"".data ++ A.data ++ ['"']) from rfl]
    exact isPfxL_cons_ne' 'k' 'a' _ _ (by decide)
  rw [if_neg (by rw [hnk]; simp)]
  have hshape : "alg=\"".data ++ A.data ++ ['"'] =
      "alg=".data ++ ('"' :: (A.data ++ ['"'])) := by
    simp
  have hpfx : isPfxL "alg=".data ("alg=\"".data ++ A.data ++ ['"']) = true := by
    rw [hshape]; exact isPfxL_self_append _ _
  rw [if_pos hpfx]
  have hdrop : ("alg=\"".data ++ A.data ++ ['"']).drop 5 = A.data ++ ['"'] := by
    have h5 := drop_length_append ("alg=\"".data) (A.data ++ ['"'])
    rw [show ("alg=\"".data).length = 5 from rfl] at h5
    rw [← List.append_assoc] at h5
    exact h5
  rw [hdrop]
  rw [trimMatchesL_quote (fun x hx => (hA x hx).1)]

theorem applyParam_created (p : SignatureParams) (cd : List Char)
    (hcd : ∀ c ∈ cd, isWsChar c = false) :
    applyParam p ("created=".data ++ cd) = { p with created := parseI64L cd } := by
  unfold applyParam
  have hlit : ∀ y ∈ "created=".data, isWsChar y = false := by decide
  have htrim : trimL ("created=".data ++ cd) = "created=".data ++ cd := by
    apply trimL_of_all_not_ws
    intro x hx
    rcases List.mem_append.mp hx with hx1 | hx1
    · exact hlit x hx1
    · exact hcd x hx1
  rw [htrim]
  have hnk : isPfxL "keyid=".data ("created=".data ++ cd) = false := by
    rw [show "created=".data ++ cd = 'c' :: ("reated=".data ++ cd) from rfl]
    exact isPfxL_cons_ne' 'k' 'c' _ _ (by decide)
  rw [if_neg (by rw [hnk]; simp)]
  have hna : isPfxL "alg=".data ("created=".data ++ cd) = false := by
    rw [show "created=".data ++ cd = 'c' :: ("reated=".data ++ cd) from rfl]
    exact isPfxL_cons_ne' 'a' 'c' _ _ (by decide)
  rw [if_neg (by rw [hna]; simp)]
  rw [if_pos (isPfxL_self_append "created=".data cd)]
  have hdrop : ("created=".data ++ cd).drop 8 = cd := by
    have h8 := drop_length_append ("created=".data) cd
    rw [show ("created=".data).length = 8 from rfl] at h8
    exact h8
  rw [hdrop]

theorem applyParam_expires (p : SignatureParams) (ed : List Char)
    (hed : ∀ c ∈ ed, isWsChar c = false) :
    applyParam p ("expires=".data ++ ed) = { p with expires := parseI64L ed } := by
  unfold applyParam
  have hlit : ∀ y ∈ "expires=".data, isWsChar y = false := by decide
  have htrim : trimL ("expires=".data ++ ed) = "expires=".data ++ ed := by
    apply trimL_of_all_not_ws
    intro x hx
    rcases List.mem_append.mp hx with hx1 | hx1
    · exact hlit x hx1
    · exact hed x hx1
  rw [htrim]
  have hnk : isPfxL "keyid=".data ("expires=".data ++ ed) = false := by
    rw [show "expires=".data ++ ed = 'e' :: ("xpires=".data ++ ed) from rfl]
    exact isPfxL_cons_ne' 'k' 'e' _ _ (by decide)
  rw [if_neg (by rw [hnk]; simp)]
  have hna : isPfxL "alg=".data ("expires=".data ++ ed) = false := by
    rw [show "expires=".data ++ ed = 'e' :: ("xpires=".data ++ ed) from rfl]
    exact isPfxL_cons_ne' 'a' 'e' _ _ (by decide)
  rw [if_neg (by rw [hna]; simp)]
  have hnc : isPfxL "created=".data ("expires=".data ++ ed) = false := by
    rw [show "expires=".data ++ ed = 'e' :: ("xpires=".data ++ ed) from rfl]
    exact isPfxL_cons_ne' 'c' 'e' _ _ (by decide)
  rw [if_neg (by rw [hnc]; simp)]
  rw [if_pos (isPfxL_self_append "expires=".data ed)]
  have hdrop : ("expires=".data ++ ed).drop 8 = ed := by
    have h8 := drop_length_append ("expires=".data) ed
    rw [show ("expires=".data).length = 8 from rfl] at h8
    exact h8
  rw [hdrop]

/-! ## Lemmas: parsing the signer-produced Signature-Input value -/

theorem params_fold (K A : String) (cd ed : List Char)
    (hK : ∀ c ∈ K.data, isHexLowerB c = true)
    (hA : ∀ c ∈ A.data, c ≠ ';' ∧ c ≠ '"' ∧ isWsChar c = false)
    (hcd : ∀ c ∈ cd, isDigitB c = true ∨ c = '-')
    (hed : ∀ c ∈ ed, isDigitB c = true ∨ c = '-') :
    ((splitOnChar ';' (("keyid=\"".data ++ K.data ++ ['"']) ++ ';' ::
      (("alg=\"".data ++ A.data ++ ['"']) ++ ';' ::
        (("created=".data ++ cd) ++ ';' :: ("expires=".data ++ ed))))).foldl applyParam {}) =
    { key_id := some K, alg := some A, created := parseI64L cd, expires := parseI64L ed,
      nonce := none, tag := none } := by
  have hs1 : ';' ∉ "keyid=\"".data ++ K.data ++ ['"'] := by
    intro hmem
    simp only [List.append_assoc, List.mem_append, List.mem_singleton] at hmem
    rcases hmem with h | h | h
    · revert h; decide
    · exact hex_not_semi (hK _ h) rfl
    · exact absurd h (by decide)
  have hs2 : ';' ∉ "alg=\"".data ++ A.data ++ ['"'] := by
    intro hmem
    simp only [List.append_assoc, List.mem_append, List.mem_singleton] at hmem
    rcases hmem with h | h | h
    · revert h; decide
    · exact (hA _ h).1 rfl
    · exact absurd h (by decide)
  have hs3 : ';' ∉ "created=".data ++ cd := by
    intro hmem
    rcases List.mem_append.mp hmem with h | h
    · revert h; decide
    · exact digitOrMinus_not_semi (hcd _ h) rfl
  have hs4 : ';' ∉ "expires=".data ++ ed := by
    intro hmem
    rcases List.mem_append.mp hmem with h | h
    · revert h; decide
    · exact digitOrMinus_not_semi (hed _ h) rfl
  rw [splitOnChar_of_not_mem hs1, splitOnChar_of_not_mem hs2,
    splitOnChar_of_not_mem hs3, splitOnChar_no_sep hs4]
  rw [List.foldl_cons, List.foldl_cons, List.foldl_cons, List.foldl_cons, List.foldl_nil]
  rw [applyParam_keyid _ _ hK]
  rw [applyParam_alg _ _ (fun c hc => ⟨(hA c hc).2.1, (hA c hc).2.2⟩)]
  rw [applyParam_created _ _ (fun c hc => digitOrMinus_not_ws (hcd c hc))]
  rw [applyParam_expires _ _ (fun c hc => digitOrMinus_not_ws (hed c hc))]

theorem parse_signed_input (P : String) (K A : String) (cd ed : List Char)
    (hP : P.data = ("keyid=\"".data ++ K.data ++ ['"']) ++ ';' ::
      (("alg=\"".data ++ A.data ++ ['"']) ++ ';' ::
        (("created=".data ++ cd) ++ ';' :: ("expires=".data ++ ed))))
    (hK : ∀ c ∈ K.data, isHexLowerB c = true)
    (hA : ∀ c ∈ A.data, c ≠ ';' ∧ c ≠ '"' ∧ isWsChar c = false)
    (hcd : ∀ c ∈ cd, isDigitB c = true ∨ c = '-')
    (hed : ∀ c ∈ ed, isDigitB c = true ∨ c = '-') :
    parse_signature_input ("(\"@method\" \"@path\" \"@authority\")" ++ P) =
    .ok ([SignatureComponent.method, SignatureComponent.path, SignatureComponent.authority],
      { key_id := some K, alg := some A, created := parseI64L cd, expires := parseI64L ed,
        nonce := none, tag := none }) := by
  unfold parse_signature_input
  have hdata : ("(\"@method\" \"@path\" \"@authority\")" ++ P).data =
      "(\"@method\" \"@path\" \"@authority\"".data ++ ')' :: P.data := by
    rw [data_append]
    rw [show "(\"@method\" \"@path\" \"@authority\")".data =
      "(\"@method\" \"@path\" \"@authority\"".data ++ [')'] from rfl]
    rw [List.append_assoc]
    rfl
  rw [hdata]
  rw [splitFirst_of_not_mem (by decide) P.data]
  dsimp only
  rw [show parseComponentList
      (splitWsL ("(\"@method\" \"@path\" \"@authority\"".data.dropWhile (· = '('))) =
    Except.ok [SignatureComponent.method, SignatureComponent.path,
      SignatureComponent.authority] from rfl]
  rw [hP, params_fold K A cd ed hK hA hcd hed]

theorem vsp_ok (K : String) (a? : Option String) (c? e? : Option Int) (t : Int)
    (hc : c? = some t ∨ c? = none) (he : e? = some (t + 300) ∨ e? = none) :
    verify_signature_params
      { key_id := some K, alg := a?, created := c?, expires := e?, nonce := none, tag := none }
      K t = .ok () := by
  unfold verify_signature_params
  rcases hc with hc | hc <;> rcases he with he | he <;> subst hc <;> subst he <;> simp

theorem algS_chars (kt : KeyType) :
    ∀ c ∈ (signerAlgChoice kt).identifier.data, c ≠ ';' ∧ c ≠ '"' ∧ isWsChar c = false := by
  cases kt <;> decide

theorem algS_valid (kt : KeyType) :
    validHeaderValue (signerAlgChoice kt).identifier = true := by
  cases kt <;> decide

/-- C1: for every key pair (of either type) and every request whose URI
carries an authority (so that the signer's default components
`[@method, @path, @authority]` are extractable), signing with
`HttpSigner::sign_request` and then verifying with
`HttpVerifier::verify_request` under the same public key succeeds. -/
theorem http_sign_verify_roundtrip (M : CryptoModel) (kp : M.Pair) (t : Int)
    (req : HttpRequest) (hauth : req.uri.authority.isSome = true) :
    ∃ signed, sign_request M kp t req = .ok signed ∧
      verify_request M (M.pubOf kp) t signed = .ok () := by
  obtain ⟨m, u, hs⟩ := req
  obtain ⟨sch, auth, pth, qry⟩ := u
  cases auth with
  | none => simp at hauth
  | some A0 =>
  have hKhex : ∀ c ∈ (M.keyId (M.pubOf kp)).data, isHexLowerB c = true :=
    List.all_eq_true.mp (M.keyId_hex (M.pubOf kp))
  have hcanon : canonicalize_request ⟨m, ⟨sch, some A0, pth, qry⟩, hs⟩ defaultComponents =
      .ok [("@method", m), ("@path", pth), ("@authority", A0)] := rfl
  have hPW : (build_signature_params (M.keyType (M.pubOf kp)) (M.keyId (M.pubOf kp)) t).toWire =
      ("keyid=\"" ++ M.keyId (M.pubOf kp) ++ "\"") ++ ";" ++
        (("alg=\"" ++ (signerAlgChoice (M.keyType (M.pubOf kp))).identifier ++ "\"") ++ ";" ++
          (("created=" ++ intDec t) ++ ";" ++ ("expires=" ++ intDec (t + 300)))) := rfl
  have hsigInput : build_signature_input defaultComponents
      (build_signature_params (M.keyType (M.pubOf kp)) (M.keyId (M.pubOf kp)) t) =
      "(\"@method\" \"@path\" \"@authority\")" ++
        (build_signature_params (M.keyType (M.pubOf kp)) (M.keyId (M.pubOf kp)) t).toWire := rfl
  have hvW : validHeaderValue
      (build_signature_params (M.keyType (M.pubOf kp)) (M.keyId (M.pubOf kp)) t).toWire = true := by
    rw [hPW]
    simp only [validHeaderValue_append, Bool.and_eq_true]
    repeat' apply And.intro
    all_goals first
      | decide
      | exact validHeaderValue_of_forall (fun c hc => hex_good (hKhex c hc))
      | exact algS_valid (M.keyType (M.pubOf kp))
      | exact validHeaderValue_of_forall (fun c hc => digitOrMinus_good (intDec_chars t c hc))
      | exact validHeaderValue_of_forall
          (fun c hc => digitOrMinus_good (intDec_chars (t + 300) c hc))
  have hv1 : validHeaderValue ("sig1=" ++ build_signature_input defaultComponents
      (build_signature_params (M.keyType (M.pubOf kp)) (M.keyId (M.pubOf kp)) t)) = true := by
    rw [hsigInput]
    simp only [validHeaderValue_append, Bool.and_eq_true]
    exact ⟨by decide, by decide, hvW⟩
  have hbytes : ∀ b ∈ M.sign kp (strBytes (build_signature_base
      [("@method", m), ("@path", pth), ("@authority", A0)]
      (build_signature_input defaultComponents
        (build_signature_params (M.keyType (M.pubOf kp)) (M.keyId (M.pubOf kp)) t)))),
      b < 256 :=
    fun b hb => of_decide_eq_true (List.all_eq_true.mp (M.sign_bytes kp _) b hb)
  have hv2 : validHeaderValue ("sig1=:" ++ b64encode (M.sign kp (strBytes
      (build_signature_base [("@method", m), ("@path", pth), ("@authority", A0)]
        (build_signature_input defaultComponents
          (build_signature_params (M.keyType (M.pubOf kp)) (M.keyId (M.pubOf kp)) t)))))) =
      true := by
    simp only [validHeaderValue_append, Bool.and_eq_true]
    refine ⟨by decide, ?_⟩
    exact validHeaderValue_of_forall (fun c hc => (b64_chars_good _ hbytes c hc).1)
  refine ⟨⟨m, ⟨sch, some A0, pth, qry⟩, insertHeader "signature"
      ("sig1=:" ++ b64encode (M.sign kp (strBytes (build_signature_base
        [("@method", m), ("@path", pth), ("@authority", A0)]
        (build_signature_input defaultComponents
          (build_signature_params (M.keyType (M.pubOf kp)) (M.keyId (M.pubOf kp)) t))))))
      (insertHeader "signature-input"
        ("sig1=" ++ build_signature_input defaultComponents
          (build_signature_params (M.keyType (M.pubOf kp)) (M.keyId (M.pubOf kp)) t)) hs)⟩,
    ?_, ?_⟩
  · unfold sign_request
    rw [hcanon]
    dsimp only
    rw [hv1, hv2]
    simp
  · unfold verify_request
    have hex : extract_signature_headers (insertHeader "signature"
        ("sig1=:" ++ b64encode (M.sign kp (strBytes (build_signature_base
          [("@method", m), ("@path", pth), ("@authority", A0)]
          (build_signature_input defaultComponents
            (build_signature_params (M.keyType (M.pubOf kp)) (M.keyId (M.pubOf kp)) t))))))
        (insertHeader "signature-input"
          ("sig1=" ++ build_signature_input defaultComponents
            (build_signature_params (M.keyType (M.pubOf kp)) (M.keyId (M.pubOf kp)) t)) hs)) =
        .ok (b64encode (M.sign kp (strBytes (build_signature_base
          [("@method", m), ("@path", pth), ("@authority", A0)]
          (build_signature_input defaultComponents
            (build_signature_params (M.keyType (M.pubOf kp)) (M.keyId (M.pubOf kp)) t))))),
          build_signature_input defaultComponents
            (build_signature_params (M.keyType (M.pubOf kp)) (M.keyId (M.pubOf kp)) t)) := by
      unfold extract_signature_headers
      rw [getHeader_insert_self]
      rw [getHeader_insert_ne _ _ _ _ (by decide), getHeader_insert_self]
      dsimp only
      rw [dropPfx_self_append]
      dsimp only
      rw [dropPfx_self_append]
    rw [hex]
    dsimp only
    have hPdata : (build_signature_params (M.keyType (M.pubOf kp))
        (M.keyId (M.pubOf kp)) t).toWire.data =
        ("keyid=\"".data ++ (M.keyId (M.pubOf kp)).data ++ ['"']) ++ ';' ::
          (("alg=\"".data ++ (signerAlgChoice (M.keyType (M.pubOf kp))).identifier.data ++
            ['"']) ++ ';' ::
            (("created=".data ++ (intDec t).data) ++ ';' ::
              ("expires=".data ++ (intDec (t + 300)).data))) := by
      rw [hPW]
      simp [data_append, List.append_assoc]
    have hparse : parse_signature_input (build_signature_input defaultComponents
        (build_signature_params (M.keyType (M.pubOf kp)) (M.keyId (M.pubOf kp)) t)) =
        .ok ([SignatureComponent.method, SignatureComponent.path, SignatureComponent.authority],
          { key_id := some (M.keyId (M.pubOf kp)),
            alg := some (signerAlgChoice (M.keyType (M.pubOf kp))).identifier,
            created := parseI64L (intDec t).data,
            expires := parseI64L (intDec (t + 300)).data,
            nonce := none, tag := none }) := by
      rw [hsigInput]
      exact parse_signed_input _ _ _ _ _ hPdata hKhex
        (algS_chars (M.keyType (M.pubOf kp))) (intDec_chars t) (intDec_chars (t + 300))
    rw [hparse]
    dsimp only
    have hvsp : verify_signature_params
        { key_id := some (M.keyId (M.pubOf kp)),
          alg := some (signerAlgChoice (M.keyType (M.pubOf kp))).identifier,
          created := parseI64L (intDec t).data,
          expires := parseI64L (intDec (t + 300)).data,
          nonce := none, tag := none } (M.keyId (M.pubOf kp)) t = .ok () :=
      vsp_ok _ _ _ _ t (parseI64_intDec t) (parseI64_intDec (t + 300))
    rw [hvsp]
    dsimp only
    have hcanon2 : canonicalize_request
        ⟨m, ⟨sch, some A0, pth, qry⟩, insertHeader "signature"
          ("sig1=:" ++ b64encode (M.sign kp (strBytes (build_signature_base
            [("@method", m), ("@path", pth), ("@authority", A0)]
            (build_signature_input defaultComponents
              (build_signature_params (M.keyType (M.pubOf kp)) (M.keyId (M.pubOf kp)) t))))))
          (insertHeader "signature-input"
            ("sig1=" ++ build_signature_input defaultComponents
              (build_signature_params (M.keyType (M.pubOf kp)) (M.keyId (M.pubOf kp)) t)) hs)⟩
        [SignatureComponent.method, SignatureComponent.path, SignatureComponent.authority] =
        .ok [("@method", m), ("@path", pth), ("@authority", A0)] := rfl
    rw [hcanon2]
    dsimp only
    have hdec : b64decode (b64encode (M.sign kp (strBytes (build_signature_base
        [("@method", m), ("@path", pth), ("@authority", A0)]
        (build_signature_input defaultComponents
          (build_signature_params (M.keyType (M.pubOf kp)) (M.keyId (M.pubOf kp)) t)))))) =
        some (M.sign kp (strBytes (build_signature_base
          [("@method", m), ("@path", pth), ("@authority", A0)]
          (build_signature_input defaultComponents
            (build_signature_params (M.keyType (M.pubOf kp)) (M.keyId (M.pubOf kp)) t))))) :=
      b64_roundtrip _ hbytes
    rw [hdec]
    dsimp only
    unfold verifyDecoded
    rcases hk : M.keyType (M.pubOf kp) with _ | _
    · rw [if_neg (by rw [M.ed_sig_len kp _ hk]; simp)]
      rw [M.ed_sig_parses kp _ hk]
      rw [M.sign_verify kp _]
      rfl
    · rw [M.secp_sig_der kp _ hk]
      rw [M.sign_verify kp _]
      rfl

/-- C2: the signature base is one `"<identifier>": <value>` line per
component followed by the final `"@signature-params": <params-line>` line,
joined by single newlines with no trailing newline; instantiated at
`POST https://example.com/foo` with components
`[Method, Authority, Path]` and `created=1618884475` it is the exact
four-line string of the specification. -/
theorem build_signature_base_format :
    (∀ (comps : List (String × String)) (paramsLine : String),
      build_signature_base comps paramsLine =
        joinSep "\n" ((comps.map fun nv => "\"" ++ nv.1 ++ "\": " ++ nv.2) ++
          ["\"@signature-params\": " ++ paramsLine])) ∧
    (∀ (M : CryptoModel) (kp : M.Pair) (t : Int) (req signed : HttpRequest),
      sign_request M kp t req = .ok signed →
      ∃ canonical sigInput,
        canonicalize_request req defaultComponents = .ok canonical ∧
        getHeader signed.headers "signature-input" = some ("sig1=" ++ sigInput) ∧
        signingBase M kp t req = .ok (build_signature_base canonical sigInput)) ∧
    canonicalize_request req₀ [SignatureComponent.method, SignatureComponent.authority,
      SignatureComponent.path] =
      .ok [("@method", "POST"), ("@authority", "example.com"), ("@path", "/foo")] ∧
    build_signature_base
      [("@method", "POST"), ("@authority", "example.com"), ("@path", "/foo")]
      "(\"@method\" \"@authority\" \"@path\");created=1618884475" =
      "\"@method\": POST\n\"@authority\": example.com\n\"@path\": /foo\n\"@signature-params\": (\"@method\" \"@authority\" \"@path\");created=1618884475" := by
  refine ⟨fun _ _ => rfl, ?_, rfl, rfl⟩
  intro M kp t req signed hsig
  unfold sign_request at hsig
  cases hc : canonicalize_request req defaultComponents with
  | error e => rw [hc] at hsig; exact absurd hsig (by simp)
  | ok canonical =>
    rw [hc] at hsig
    dsimp only at hsig
    by_cases hv1 : validHeaderValue ("sig1=" ++ build_signature_input defaultComponents
        (build_signature_params (M.keyType (M.pubOf kp)) (M.keyId (M.pubOf kp)) t)) = false
    · rw [if_pos hv1] at hsig; exact absurd hsig (by simp)
    · rw [if_neg hv1] at hsig
      by_cases hv2 : validHeaderValue ("sig1=:" ++ b64encode (M.sign kp (strBytes
          (build_signature_base canonical (build_signature_input defaultComponents
            (build_signature_params (M.keyType (M.pubOf kp)) (M.keyId (M.pubOf kp)) t)))))) =
          false
      · rw [if_pos hv2] at hsig; exact absurd hsig (by simp)
      · rw [if_neg hv2] at hsig
        have hsigned := (Except.ok.inj hsig).symm
        subst hsigned
        refine ⟨canonical, build_signature_input defaultComponents
          (build_signature_params (M.keyType (M.pubOf kp)) (M.keyId (M.pubOf kp)) t),
          rfl, ?_, ?_⟩
        · dsimp only
          rw [getHeader_insert_ne _ _ _ _ (by decide)]
          exact getHeader_insert_self _ _ _
        · unfold signingBase
          rw [hc]

/-- Witness for `build_signature_base_format`: the sign-path conjunct at
the concrete model `M₀`, request `req₀` and time 1000. -/
theorem build_signature_base_format_witness :
    ∃ canonical sigInput,
      canonicalize_request req₀ defaultComponents = .ok canonical ∧
      getHeader signed₀.headers "signature-input" = some ("sig1=" ++ sigInput) ∧
      signingBase M₀ () 1000 req₀ = .ok (build_signature_base canonical sigInput) :=
  build_signature_base_format.2.1 M₀ () 1000 req₀ signed₀ (by rfl)

/-- C4: the signer selects `SignatureAlgorithm::EcdsaP256Sha256` for a
secp256k1 key, so the `alg` parameter written into `Signature-Input` is
`"ecdsa-p256-sha256"` — not the `"ecdsa-secp256k1-sha256"` identifier that
the enum itself defines for secp256k1 — while the Ed25519 side is
`"ed25519"` as specified. -/
theorem signer_alg_identifier_bug (kid : String) (t : Int) :
    (build_signature_params KeyType.secp256k1 kid t).alg = some "ecdsa-p256-sha256" ∧
    (build_signature_params KeyType.ed25519 kid t).alg = some "ed25519" ∧
    SignatureAlgorithm.identifier SignatureAlgorithm.ecdsaSecp256k1Sha256 =
      "ecdsa-secp256k1-sha256" :=
  ⟨rfl, rfl, rfl⟩

/-- C5 counterexample: `PublicKey::from_bytes` accepts a 33-byte secp256k1
string whose leading byte is 0x00 (neither 0x02 nor 0x03, hence not a valid
compressed point encoding), contrary to the claim that such inputs are
rejected at construction. -/
theorem from_bytes_accepts_invalid_point_cex :
    publicKeyFromBytes KeyType.secp256k1 (List.replicate 33 0) =
      .ok (PublicKeyE.secp256k1 (List.replicate 33 0)) ∧
    (List.replicate 33 0).head? = some 0 ∧ (0 : Nat) ≠ 2 ∧ (0 : Nat) ≠ 3 ∧
    (List.replicate 33 0).length = 33 := by
  refine ⟨rfl, rfl, by decide, by decide, rfl⟩

/-- C5 amended: `PublicKey::from_bytes` validates only the byte length
(32 for Ed25519, 33 for secp256k1), returning `InvalidInput` on a length
mismatch and accepting every correct-length byte string without any curve
point validation. -/
theorem from_bytes_length_only (bs : List Nat) :
    (publicKeyFromBytes KeyType.ed25519 bs =
      if bs.length = 32 then .ok (.ed25519 bs)
      else .error (.invalidInput "Ed25519 public key must be 32 bytes")) ∧
    (publicKeyFromBytes KeyType.secp256k1 bs =
      if bs.length = 33 then .ok (.secp256k1 bs)
      else .error (.invalidInput "Secp256k1 public key must be 33 bytes (compressed)")) := by
  constructor
  · by_cases h : bs.length = 32 <;> simp [publicKeyFromBytes, h]
  · by_cases h : bs.length = 33 <;> simp [publicKeyFromBytes, h]

/-- C6: the verifier's time policy: a `created` more than 300 seconds in
the future fails with the created-in-the-future `Verification` error; an
`expires` in the past fails (with the expiration message whenever the
created check passes, and in every case with a `Verification` error); and
with neither field present no time check is performed — the result does not
depend on the clock at all. -/
theorem verify_time_policy (p : SignatureParams) (kid : String) (now : Int) :
    (∀ c, p.created = some c → now + 300 < c →
      verify_signature_params p kid now =
        .error (.verification "Signature created in the future")) ∧
    (∀ e, p.expires = some e → e < now → (∀ c, p.created = some c → c ≤ now + 300) →
      verify_signature_params p kid now = .error (.verification "Signature expired")) ∧
    (∀ e, p.expires = some e → e < now →
      ∃ msg, verify_signature_params p kid now = .error (.verification msg)) ∧
    (p.created = none → p.expires = none → ∀ now' : Int,
      verify_signature_params p kid now = verify_signature_params p kid now') := by
  obtain ⟨k?, a?, c?, e?, n?, t?⟩ := p
  refine ⟨?_, ?_, ?_, ?_⟩
  · intro c hc hlt
    simp only at hc
    subst hc
    unfold verify_signature_params
    simp [hlt]
  · intro e he hlt hbound
    simp only at he
    subst he
    cases c? with
    | none =>
      unfold verify_signature_params
      simp [hlt]
    | some c =>
      have hbc : c ≤ now + 300 := hbound c rfl
      unfold verify_signature_params
      simp only
      rw [if_neg (by omega)]
      simp [hlt]
  · intro e he hlt
    simp only at he
    subst he
    cases c? with
    | none =>
      exact ⟨"Signature expired", by unfold verify_signature_params; simp [hlt]⟩
    | some c =>
      by_cases hfut : now + 300 < c
      · exact ⟨"Signature created in the future", by
          unfold verify_signature_params; simp [hfut]⟩
      · exact ⟨"Signature expired", by
          unfold verify_signature_params
          simp only
          rw [if_neg hfut]
          simp [hlt]⟩
  · intro hc he now'
    simp only at hc he
    subst hc
    subst he
    rfl

/-- Witness for `verify_time_policy` at concrete parameters and times. -/
theorem verify_time_policy_witness :
    verify_signature_params
      { key_id := none, alg := none, created := some 400, expires := none,
        nonce := none, tag := none } "k" 0 =
      .error (.verification "Signature created in the future") ∧
    verify_signature_params
      { key_id := none, alg := none, created := some 0, expires := some (-1),
        nonce := none, tag := none } "k" 0 =
      .error (.verification "Signature expired") ∧
    (∃ msg, verify_signature_params
      { key_id := none, alg := none, created := none, expires := some (-1),
        nonce := none, tag := none } "k" 0 = .error (.verification msg)) ∧
    verify_signature_params
      { key_id := some "k", alg := none, created := none, expires := none,
        nonce := none, tag := none } "k" 5 =
      verify_signature_params
        { key_id := some "k", alg := none, created := none, expires := none,
          nonce := none, tag := none } "k" 999 :=
  ⟨(verify_time_policy _ "k" 0).1 400 rfl (by omega),
   (verify_time_policy _ "k" 0).2.1 (-1) rfl (by omega)
     (fun c hc => by injection hc with h; omega),
   (verify_time_policy _ "k" 0).2.2.1 (-1) rfl (by omega),
   (verify_time_policy _ "k" 5).2.2.2 rfl rfl 999⟩

/-- C7: when the parsed `Signature-Input` carries a `keyid` different from
the verifier key's `key_id()` (and the time checks pass), verification
fails with `Verification("Key ID mismatch")` — for every request and every
crypto model, including requests whose canonicalization would fail, which
shows the failure precedes canonicalization and the cryptographic check. -/
theorem keyid_mismatch_rejects_early (M : CryptoModel) (pk : M.Pub) (now : Int)
    (req : HttpRequest) (sv si : String) (comps : List SignatureComponent)
    (params : SignatureParams) (k : String)
    (hx : extract_signature_headers req.headers = .ok (sv, si))
    (hparse : parse_signature_input si = .ok (comps, params))
    (hkid : params.key_id = some k) (hne : k ≠ M.keyId pk)
    (hc : ∀ c, params.created = some c → c ≤ now + 300)
    (he : ∀ e, params.expires = some e → now ≤ e) :
    verify_request M pk now req = .error (.verification "Key ID mismatch") := by
  unfold verify_request
  rw [hx]
  dsimp only
  rw [hparse]
  dsimp only
  have hvsp : verify_signature_params params (M.keyId pk) now =
      .error (.verification "Key ID mismatch") := by
    obtain ⟨k?, a?, c?, e?, n?, t?⟩ := params
    simp only at hkid hc he
    subst hkid
    cases c? with
    | none =>
      cases e? with
      | none =>
        unfold verify_signature_params
        simp [hne]
      | some e =>
        have h1 : ¬(e < now) := by have := he e rfl; omega
        unfold verify_signature_params
        simp only
        rw [if_neg h1]
        simp [hne]
    | some c =>
      have h0 : ¬(now + 300 < c) := by have := hc c rfl; omega
      cases e? with
      | none =>
        unfold verify_signature_params
        simp only
        rw [if_neg h0]
        simp [hne]
      | some e =>
        have h1 : ¬(e < now) := by have := he e rfl; omega
        unfold verify_signature_params
        simp only
        rw [if_neg h0, if_neg h1]
        simp [hne]
  rw [hvsp]

/-- Witness for `keyid_mismatch_rejects_early`: a request whose URI has no
authority (so canonicalizing the listed `@authority` component would fail)
still fails with the key-id mismatch error. -/
theorem keyid_mismatch_rejects_early_witness :
    verify_request M₀ () 0 req₇ = .error (.verification "Key ID mismatch") :=
  keyid_mismatch_rejects_early M₀ () 0 req₇ "QQ==:" "(\"@authority\")keyid=\"deadbeef\""
    [SignatureComponent.authority]
    { key_id := some "deadbeef", alg := none, created := none, expires := none,
      nonce := none, tag := none } "deadbeef"
    rfl rfl rfl (by decide) (fun c hc => nomatch hc) (fun e he => nomatch he)

/-- C9 counterexample: requesting `@authority` on an authority-less URI
fails with the message "Missing authority in URI", not the claim's exact
`InvalidInput("Missing authority")`. -/
theorem missing_authority_message_cex :
    canonicalize_request reqNoAuth [SignatureComponent.authority] =
      .error (.invalidInput "Missing authority in URI") ∧
    Err.invalidInput "Missing authority in URI" ≠ Err.invalidInput "Missing authority" :=
  ⟨rfl, by decide⟩

/-- C9 amended: `@query` canonicalizes to `"?" ++ query` when a query is
present and to the literal `"?"` when absent, and requesting `@authority`
on a URI with no authority fails with
`InvalidInput("Missing authority in URI")`. -/
theorem query_authority_canonicalization (req : HttpRequest) :
    (∀ q, req.uri.query = some q →
      canonicalize_request req [SignatureComponent.query] = .ok [("@query", "?" ++ q)]) ∧
    (req.uri.query = none →
      canonicalize_request req [SignatureComponent.query] = .ok [("@query", "?")]) ∧
    (req.uri.authority = none →
      canonicalize_request req [SignatureComponent.authority] =
        .error (.invalidInput "Missing authority in URI")) := by
  refine ⟨?_, ?_, ?_⟩
  · intro q hq
    simp [canonicalize_request, canonicalizeComponent, hq]
  · intro hq
    simp [canonicalize_request, canonicalizeComponent, hq]
  · intro ha
    simp [canonicalize_request, canonicalizeComponent, ha]

/-- Witness for `query_authority_canonicalization` on concrete requests. -/
theorem query_authority_canonicalization_witness :
    canonicalize_request reqQuery [SignatureComponent.query] =
      .ok [("@query", "?a=1&b=2")] ∧
    canonicalize_request reqNoAuth [SignatureComponent.query] = .ok [("@query", "?")] ∧
    canonicalize_request reqNoAuth [SignatureComponent.authority] =
      .error (.invalidInput "Missing authority in URI") :=
  ⟨(query_authority_canonicalization reqQuery).1 "a=1&b=2" rfl,
   (query_authority_canonicalization reqNoAuth).2.1 rfl,
   (query_authority_canonicalization reqNoAuth).2.2 rfl⟩

/-- C8 counterexample: headers whose only dictionary label is `sig0` make
the verifier fail with `InvalidInput("Invalid signature header format")`
instead of selecting the lexicographically-first label. -/
theorem sibling_label_rejected_cex :
    extract_signature_headers hdrs₈ =
      .error (.invalidInput "Invalid signature header format") ∧
    getHeader hdrs₈ "signature" = some "sig0=:QQ==:" :=
  ⟨rfl, rfl⟩

/-- C8 amended: `extract_signature_headers` handles only the literal `sig1`
label: the `Signature` value must start with `sig1=:` and the
`Signature-Input` value with `sig1=`; any other leading label fails with
`InvalidInput`, and when both prefixes match, the rests are returned
verbatim. -/
theorem extract_requires_sig1 (hs : List (String × String)) (sv siv : String)
    (h1 : getHeader hs "signature" = some sv)
    (h2 : getHeader hs "signature-input" = some siv) :
    (dropPfx "sig1=:" sv = none →
      extract_signature_headers hs =
        .error (.invalidInput "Invalid signature header format")) ∧
    (∀ rest, dropPfx "sig1=:" sv = some rest → dropPfx "sig1=" siv = none →
      extract_signature_headers hs =
        .error (.invalidInput "Invalid signature-input header format")) ∧
    (∀ rest input, dropPfx "sig1=:" sv = some rest → dropPfx "sig1=" siv = some input →
      extract_signature_headers hs = .ok (rest, input)) := by
  unfold extract_signature_headers
  rw [h1]
  dsimp only
  rw [h2]
  dsimp only
  refine ⟨?_, ?_, ?_⟩
  · intro hd
    rw [hd]
  · intro rest hd hd2
    rw [hd]
    dsimp only
    rw [hd2]
  · intro rest input hd hd2
    rw [hd]
    dsimp only
    rw [hd2]

/-- Witness for `extract_requires_sig1`: a `sig0`-labelled header is
rejected; a `sig1`-labelled one is split into its two values. -/
theorem extract_requires_sig1_witness :
    extract_signature_headers hdrs₈ =
      .error (.invalidInput "Invalid signature header format") ∧
    extract_signature_headers hdrs₃ = .ok ("QQ==:", "(\"@method\")") :=
  ⟨(extract_requires_sig1 hdrs₈ "sig0=:QQ==:" "sig0=(\"@method\")" rfl rfl).1 rfl,
   (extract_requires_sig1 hdrs₃ "sig1=:QQ==:" "sig1=(\"@method\")" rfl rfl).2.2
     "QQ==:" "(\"@method\")" rfl rfl⟩

/-- C10: a `created=` or `expires=` parameter whose value does not parse as
a signed 64-bit decimal is silently dropped by `parse_signature_input`
(stored as absent), and the resulting parameter record passes
`verify_signature_params` at every clock reading — the corresponding time
check is simply skipped. -/
theorem malformed_time_params_dropped (v w kid : String) (now : Int)
    (hv : ∀ c ∈ v.data, c ≠ ';' ∧ isWsChar c = false)
    (hw : ∀ c ∈ w.data, c ≠ ';' ∧ isWsChar c = false)
    (hpv : parseI64 v = none) (hpw : parseI64 w = none) :
    parse_signature_input ("(\"@method\")created=" ++ v ++ ";expires=" ++ w) =
      .ok ([SignatureComponent.method],
        { key_id := none, alg := none, created := none, expires := none,
          nonce := none, tag := none }) ∧
    verify_signature_params
      { key_id := none, alg := none, created := none, expires := none,
        nonce := none, tag := none } kid now = .ok () := by
  constructor
  · unfold parse_signature_input
    have hdata : ("(\"@method\")created=" ++ v ++ ";expires=" ++ w).data =
        "(\"@method\"".data ++ ')' ::
          (("created=".data ++ v.data) ++ ';' :: ("expires=".data ++ w.data)) := by
      simp [data_append, List.append_assoc,
        show "(\"@method\")created=".data =
          "(\"@method\"".data ++ ')' :: "created=".data from rfl,
        show ";expires=".data = ';' :: "expires=".data from rfl]
    rw [hdata]
    rw [splitFirst_of_not_mem (by decide) _]
    dsimp only
    rw [show parseComponentList (splitWsL ("(\"@method\"".data.dropWhile (· = '('))) =
      Except.ok [SignatureComponent.method] from rfl]
    have hm1 : ';' ∉ "created=".data ++ v.data := by
      intro hmem
      rcases List.mem_append.mp hmem with h | h
      · revert h; decide
      · exact (hv _ h).1 rfl
    have hm2 : ';' ∉ "expires=".data ++ w.data := by
      intro hmem
      rcases List.mem_append.mp hmem with h | h
      · revert h; decide
      · exact (hw _ h).1 rfl
    rw [splitOnChar_of_not_mem hm1, splitOnChar_no_sep hm2]
    rw [List.foldl_cons, List.foldl_cons, List.foldl_nil]
    rw [applyParam_created _ _ (fun c hc => (hv c hc).2)]
    rw [applyParam_expires _ _ (fun c hc => (hw c hc).2)]
    have hpv' : parseI64L v.data = none := hpv
    have hpw' : parseI64L w.data = none := hpw
    rw [hpv', hpw']
  · rfl

/-- Witness for `malformed_time_params_dropped` with `created=abc` and
`expires=12x`. -/
theorem malformed_time_params_dropped_witness :
    parse_signature_input ("(\"@method\")created=" ++ "abc" ++ ";expires=" ++ "12x") =
      .ok ([SignatureComponent.method],
        { key_id := none, alg := none, created := none, expires := none,
          nonce := none, tag := none }) ∧
    verify_signature_params
      { key_id := none, alg := none, created := none, expires := none,
        nonce := none, tag := none } "k" 0 = .ok () :=
  malformed_time_params_dropped "abc" "12x" "k" 0 (by decide) (by decide) rfl rfl

/-- C3 counterexample: a concrete successful sign operation writes the
`Signature` header as `sig1=:<base64>` with no trailing colon (so the value
differs from the claimed colon-wrapped form), and the verifier's parser
strips only the `sig1=:` prefix — a trailing colon is left in the value. -/
theorem signature_header_trailing_colon_cex :
    ((sign_request M₀ () 1000 req₀).map fun r => getHeader r.headers "signature") =
      .ok (some ("sig1=:" ++ b64encode (List.replicate 64 7))) ∧
    ("sig1=:" ++ b64encode (List.replicate 64 7) ≠
      "sig1=:" ++ b64encode (List.replicate 64 7) ++ ":") ∧
    extract_signature_headers hdrs₃ = .ok ("QQ==:", "(\"@method\")") := by
  refine ⟨by rfl, ?_, rfl⟩
  decide

/-- C3 amended: every successful sign operation writes the `Signature`
header as `sig1=:` followed by the base64 signature value, which contains
no colon at all (in particular no trailing colon); the verifier's parser
strips exactly the `sig1=:` and `sig1=` prefixes and nothing more. -/
theorem signature_header_wire_format :
    (∀ (M : CryptoModel) (kp : M.Pair) (t : Int) (req signed : HttpRequest),
      sign_request M kp t req = .ok signed →
      ∃ base, signingBase M kp t req = .ok base ∧
        getHeader signed.headers "signature" =
          some ("sig1=:" ++ b64encode (M.sign kp (strBytes base))) ∧
        ∀ ch ∈ (b64encode (M.sign kp (strBytes base))).data, ch ≠ ':') ∧
    (∀ (hs : List (String × String)) (rest input : String),
      getHeader hs "signature" = some ("sig1=:" ++ rest) →
      getHeader hs "signature-input" = some ("sig1=" ++ input) →
      extract_signature_headers hs = .ok (rest, input)) := by
  constructor
  · intro M kp t req signed hsig
    unfold sign_request at hsig
    cases hc : canonicalize_request req defaultComponents with
    | error e => rw [hc] at hsig; exact absurd hsig (by simp)
    | ok canonical =>
      rw [hc] at hsig
      dsimp only at hsig
      by_cases hv1 : validHeaderValue ("sig1=" ++ build_signature_input defaultComponents
          (build_signature_params (M.keyType (M.pubOf kp)) (M.keyId (M.pubOf kp)) t)) = false
      · rw [if_pos hv1] at hsig; exact absurd hsig (by simp)
      · rw [if_neg hv1] at hsig
        by_cases hv2 : validHeaderValue ("sig1=:" ++ b64encode (M.sign kp (strBytes
            (build_signature_base canonical (build_signature_input defaultComponents
              (build_signature_params (M.keyType (M.pubOf kp)) (M.keyId (M.pubOf kp)) t)))))) =
            false
        · rw [if_pos hv2] at hsig; exact absurd hsig (by simp)
        · rw [if_neg hv2] at hsig
          have hsigned := (Except.ok.inj hsig).symm
          subst hsigned
          refine ⟨build_signature_base canonical (build_signature_input defaultComponents
            (build_signature_params (M.keyType (M.pubOf kp)) (M.keyId (M.pubOf kp)) t)),
            ?_, ?_, ?_⟩
          · unfold signingBase
            rw [hc]
          · exact getHeader_insert_self _ _ _
          · intro ch hch
            exact (b64_chars_good _ (fun b hb => of_decide_eq_true
              (List.all_eq_true.mp (M.sign_bytes kp _) b hb)) ch hch).2
  · intro hs rest input h1 h2
    unfold extract_signature_headers
    rw [h1]
    dsimp only
    rw [h2]
    dsimp only
    rw [dropPfx_self_append]
    dsimp only
    rw [dropPfx_self_append]

/-- Witness for `signature_header_wire_format` at the concrete model `M₀`,
request `req₀`, time 1000 and at concrete `sig1`-labelled headers. -/
theorem signature_header_wire_format_witness :
    (∃ base, signingBase M₀ () 1000 req₀ = .ok base ∧
      getHeader signed₀.headers "signature" =
        some ("sig1=:" ++ b64encode (M₀.sign () (strBytes base))) ∧
      ∀ ch ∈ (b64encode (M₀.sign () (strBytes base))).data, ch ≠ ':') ∧
    extract_signature_headers hdrs₃ = .ok ("QQ==:", "(\"@method\")") :=
  ⟨signature_header_wire_format.1 M₀ () 1000 req₀ signed₀ (by rfl),
   signature_header_wire_format.2 hdrs₃ "QQ==:" "(\"@method\")" rfl rfl⟩

/-- Witness for `http_sign_verify_roundtrip` at the concrete model,
request and time. -/
theorem http_sign_verify_roundtrip_witness :
    ∃ signed, sign_request M₀ () 1000 req₀ = .ok signed ∧
      verify_request M₀ (M₀.pubOf ()) 1000 signed = .ok () :=
  http_sign_verify_roundtrip M₀ () 1000 req₀ (by decide)

end Sage
